import Mathlib

/-!
Verification development for `cpdep` (src/src/main.rs), a tool that resolves
the shared-library dependencies of an executable and copies them into a
bundle directory.

Shallow embedding conventions:
- The filesystem is a parameter. For `resolve_dependencies_recursively`,
  which calls `fs::read` followed by `extract_dependencies` (goblin ELF
  parse), we model the composition as
  `fsys : String → Option (List String)`: `fsys p = some deps` means the
  file at path `p` is readable and parses as an ELF whose dynamic-section
  library list is `deps`; `fsys p = none` means `fs::read` fails or the
  parse panics (both abort the whole resolution in the Rust code, modelled
  as `Except.error`).
- For `find_library_path`, which only calls `Path::exists`, the filesystem
  is `ex : String → Bool` (existence of a path).
- Rust's `HashSet<String>` is modelled as a duplicate-free `List String`;
  insertion is guarded by a membership test exactly where the Rust code
  guards it, and set-level facts are stated via membership / `List.Perm`.
- The Rust recursion has no fuel, but Lean requires a termination measure;
  we add a `fuel : Nat` argument and prove that every fuel ≥ 2 yields the
  same result (`resolveDepsRec_closed_form`), so the fuel is invisible for
  the program's actual behaviour.
- Ghost instrumentation: each resolver invocation also returns the list of
  paths it passed to `fs::read`, so that claims about "which files were
  read / recursed into" are observable. The Rust function's return value
  corresponds to the first component only.
-/

namespace Cpdep

/-- First character is `/` (i.e. the path is absolute). -/
def strHeadIsSlash (s : String) : Bool :=
  match s.toList with
  | [] => false
  | c :: _ => c == '/'

/-- Last character is `/`. -/
def strLastIsSlash (s : String) : Bool :=
  match s.toList.getLast? with
  | none => false
  | some c => c == '/'

/-- Model of Rust `Path::new(dir).join(name)`: joining with an absolute
`name` yields `name`; joining with the empty dir yields `name`; a trailing
slash on `dir` is not doubled. -/
def joinPath (dir name : String) : String :=
  if strHeadIsSlash name then name
  else if dir = "" then name
  else if strLastIsSlash dir then dir ++ name
  else dir ++ "/" ++ name

/-- Split a character list at every occurrence of `sep` (Rust
`str::split(sep)` semantics: the empty input yields one empty piece,
adjacent separators yield empty pieces). -/
def splitCharsAux (sep : Char) : List Char → List Char → List (List Char)
  | [], acc => [acc.reverse]
  | c :: cs, acc =>
    if c == sep then acc.reverse :: splitCharsAux sep cs []
    else splitCharsAux sep cs (c :: acc)

/-- Split a string at every occurrence of a single-character separator. -/
def splitOnChar (sep : Char) (s : String) : List String :=
  (splitCharsAux sep s.toList []).map String.mk

/-- The built-in system library directories from `find_library_path`
(src/src/main.rs line 12), in source order. -/
def system_paths : List String :=
  ["/lib", "/usr/lib", "/lib64", "/usr/lib64", "/usr/local/lib"]

/-- Model of `env::var("LD_LIBRARY_PATH")` followed by `split(':')`:
`none` models an absent (or non-unicode) variable, in which case the loop
body is skipped. -/
def ldSplit : Option String → List String
  | none => []
  | some s => splitOnChar ':' s

/-- One search loop of `find_library_path`: probe each directory in order,
return the first `dir.join(name)` that exists, also recording every
directory actually probed (ghost trace for the no-duplicate-search claim). -/
def probeDirs (ex : String → Bool) (name : String) : List String → Option String × List String
  | [] => (none, [])
  | d :: rest =>
    let p := joinPath d name
    if ex p then (some p, [d])
    else
      let r := probeDirs ex name rest
      (r.1, d :: r.2)

/-- Embedding of `find_library_path` (src/src/main.rs lines 10–34) with the
probe trace. The Rust code builds
`system_paths = [/lib, /usr/lib, /lib64, /usr/lib64, /usr/local/lib]` and
then `append`s the user-supplied paths to it (only when non-empty, which is
the same list either way), loops over that combined vector, and only
afterwards loops over the `LD_LIBRARY_PATH` entries. -/
def find_library_path_trace (ex : String → Bool) (lib_name : String)
    (user_path : List String) (ld : Option String) : Option String × List String :=
  let r1 := probeDirs ex lib_name (system_paths ++ user_path)
  match r1.1 with
  | some p => (some p, r1.2)
  | none =>
    let r2 := probeDirs ex lib_name (ldSplit ld)
    (r2.1, r1.2 ++ r2.2)

/-- The Rust function's return value: first hit or `None`. -/
def find_library_path (ex : String → Bool) (lib_name : String)
    (user_path : List String) (ld : Option String) : Option String :=
  (find_library_path_trace ex lib_name user_path ld).1

/-- Rust `HashSet::insert` guarded as in the dependency loop: add `dep`
only if not already present. -/
def insertNew (proc : List String) (dep : String) : List String :=
  if dep ∈ proc then proc else dep :: proc

/-- The `for dep in dependencies` loop body of
`resolve_dependencies_recursively` (src/src/main.rs lines 53–59):
for each dependency not yet in `processed`, insert it and then make the
recursive call on the bare name; `recur` is the recursive entry point at
the remaining fuel. Returns the updated set and the concatenated read
traces of the recursive calls. -/
def resolveLoop (recur : String → List String → Except String (List String × List String)) :
    List String → List String → Except String (List String × List String)
  | [], proc => Except.ok (proc, [])
  | dep :: rest, proc =>
    if dep ∈ proc then
      resolveLoop recur rest proc
    else
      match recur dep (dep :: proc) with
      | Except.error e => Except.error e
      | Except.ok (proc2, reads2) =>
        match resolveLoop recur rest proc2 with
        | Except.error e => Except.error e
        | Except.ok (proc3, reads3) => Except.ok (proc3, reads2 ++ reads3)

/-- Embedding of `resolve_dependencies_recursively` (src/src/main.rs lines
41–62). Guard: if the current path is already in `processed`, return the
set unchanged. Otherwise `fs::read` the current path (recorded in the ghost
read trace; failure aborts with an error, as `?`/`expect` do), extract the
direct dependency names, and run the dependency loop. -/
def resolveDepsRec (fsys : String → Option (List String)) :
    Nat → String → List String → Except String (List String × List String)
  | 0, _, _ => Except.error "fuel exhausted"
  | Nat.succ n, executable_path, processed =>
    if executable_path ∈ processed then
      Except.ok (processed, [])
    else
      match fsys executable_path with
      | none => Except.error executable_path
      | some dependencies =>
        match resolveLoop (resolveDepsRec fsys n) dependencies processed with
        | Except.error e => Except.error e
        | Except.ok (proc, reads) => Except.ok (proc, executable_path :: reads)

/-- A pattern character matches an input character: `.` is the regex
wildcard, which in Rust's `regex` crate matches any character except a
newline; every other character of the three ignore patterns is a literal. -/
def charMatch (p c : Char) : Bool :=
  if p = '.' then c ≠ '\n' else p = c

/-- The pattern matches a prefix of the input. -/
def headMatch : List Char → List Char → Bool
  | [], _ => true
  | _ :: _, [] => false
  | p :: ps, c :: cs => charMatch p c && headMatch ps cs

/-- Unanchored search: the pattern matches at some position of the input.
`Regex::is_match` of a regex of the shape `LITERAL-WITH-DOTS.*` holds iff
the dotted literal part matches somewhere (the trailing `.*` always
succeeds, matching the empty string if necessary). -/
def subMatch (pat : List Char) : List Char → Bool
  | [] => headMatch pat []
  | c :: cs => headMatch pat (c :: cs) || subMatch pat cs

/-- The three ignore patterns of `resolve_dependencies` (src/src/main.rs
lines 86–90), each written without its trailing `.*`; the remaining `.`
occurrences are regex wildcards. -/
def ignore_patterns : List String :=
  ["ld-linux-x86-64.so", "linux-vdso.so", "libc.so"]

/-- Model of `ignore_patterns.iter().any(|regex| regex.is_match(dep))`. -/
def isIgnored (dep : String) : Bool :=
  ignore_patterns.any (fun p => subMatch p.toList dep.toList)

/-- Embedding of `resolve_dependencies` (src/src/main.rs lines 81–98):
run the recursive resolver from an empty set, then `retain` only the
entries matching no ignore pattern. (The ghost read trace is dropped, as
the Rust function returns only the set.) -/
def resolve_dependencies (fsys : String → Option (List String)) (fuel : Nat)
    (executable_path : String) : Except String (List String) :=
  match resolveDepsRec fsys fuel executable_path [] with
  | Except.error e => Except.error e
  | Except.ok (all_dependencies, _) =>
    Except.ok (all_dependencies.filter (fun dep => !isIgnored dep))

/-- Rust `Path::file_name()`: the last `/`-separated component. -/
def fileName (p : String) : String :=
  (splitOnChar '/' p).getLastD ""

/-- Observable events of `copy_libraries` (src/src/main.rs lines 64–79):
either a successful copy of a resolved source path to a target path, or
the `"Library {} not found"` report printed on standard output. -/
inductive CopyEvent where
  | copied (src tgt : String)
  | notFound (lib : String)
deriving DecidableEq

/-- Embedding of `copy_libraries`: for each library of the set (in some
iteration order, since `HashSet` iteration order is arbitrary the claims
quantify over the order), resolve it with `find_library_path`; a hit is
copied to `target_dir.join(file_name)`, a miss is reported and skipped.
`fs::copy` itself is assumed to succeed (its failure is a separate fatal
path not exercised by the claims); under that assumption the Rust function
always returns `Ok(())`, so the model is total. -/
def copy_libraries (ex : String → Bool) (ld : Option String)
    (libraries : List String) (target_dir : String) (search_path : List String) :
    List CopyEvent :=
  libraries.map (fun lib =>
    match find_library_path ex lib search_path ld with
    | some dep_path => CopyEvent.copied dep_path (joinPath target_dir (fileName dep_path))
    | none => CopyEvent.notFound lib)

/-- Embedding of the clap `Args` struct (src/src/main.rs lines 101–116):
`exe` required, `target` defaulted, `search` optional. -/
structure Args where
  exe : String
  target : String
  search : Option String
deriving DecidableEq

/-- Clap-level parsing outcome: `exe` is required; an absent `target` takes
the declared default `"output"`; `search` stays optional. -/
def parse_args (exe : String) (target : Option String) (search : Option String) : Args :=
  { exe := exe, target := target.getD "output", search := search }

/-- Model of `main`'s search-path setup (src/src/main.rs lines 181–183):
`let search_path_str = args.search.unwrap(); user_search_path.push(..)`.
`Option.unwrap()` on `None` panics, modelled as `none`; otherwise the
one-element user search path list is produced. -/
def main_user_search_path (a : Args) : Option (List String) :=
  match a.search with
  | some s => some [s]
  | none => none

/-! ### Closed form of the resolver

Because the dependency loop inserts `dep` into `processed` *before* the
recursive call, the callee's first guard (`processed.contains`) is always
true and every recursive call returns immediately. The following lemmas
prove this once and for all: for any fuel ≥ 2 the resolver reads exactly
one file (the current path) and returns the initial set plus the direct
dependencies. -/

theorem resolveDepsRec_succ (fsys : String → Option (List String)) (n : Nat)
    (path : String) (proc : List String) :
    resolveDepsRec fsys (n + 1) path proc =
      if path ∈ proc then Except.ok (proc, [])
      else
        match fsys path with
        | none => Except.error path
        | some deps =>
          match resolveLoop (resolveDepsRec fsys n) deps proc with
          | Except.error e => Except.error e
          | Except.ok (p, reads) => Except.ok (p, path :: reads) := rfl

theorem resolveLoop_eq (fsys : String → Option (List String)) (n : Nat)
    (deps : List String) (proc : List String) :
    resolveLoop (resolveDepsRec fsys (n + 1)) deps proc =
      Except.ok (deps.foldl insertNew proc, []) := by
  induction deps generalizing proc with
  | nil => rfl
  | cons dep rest ih =>
    by_cases h : dep ∈ proc
    · have h1 : resolveLoop (resolveDepsRec fsys (n + 1)) (dep :: rest) proc =
          resolveLoop (resolveDepsRec fsys (n + 1)) rest proc := by
        simp [resolveLoop, h]
      have h2 : List.foldl insertNew proc (dep :: rest) =
          List.foldl insertNew proc rest := by
        simp [List.foldl_cons, insertNew, h]
      rw [h1, h2]
      exact ih proc
    · have hrec : resolveDepsRec fsys (n + 1) dep (dep :: proc) =
          Except.ok (dep :: proc, []) := by
        rw [resolveDepsRec_succ, if_pos (List.mem_cons_self dep proc)]
      have hins : insertNew proc dep = dep :: proc := by
        simp [insertNew, h]
      simp only [resolveLoop, if_neg h, hrec, ih (dep :: proc),
        List.nil_append, List.foldl_cons, hins]

theorem resolveDepsRec_closed_form (fsys : String → Option (List String))
    (fuel : Nat) (h2 : 2 ≤ fuel) (path : String) (proc : List String) :
    resolveDepsRec fsys fuel path proc =
      if path ∈ proc then Except.ok (proc, [])
      else
        match fsys path with
        | none => Except.error path
        | some deps => Except.ok (deps.foldl insertNew proc, [path]) := by
  obtain ⟨n, rfl⟩ : ∃ n, fuel = n + 2 := ⟨fuel - 2, by omega⟩
  rw [show n + 2 = (n + 1) + 1 from rfl, resolveDepsRec_succ]
  by_cases h : path ∈ proc
  · rw [if_pos h, if_pos h]
  · rw [if_neg h, if_neg h]
    cases hf : fsys path with
    | none => rfl
    | some deps =>
      show (match resolveLoop (resolveDepsRec fsys (n + 1)) deps proc with
          | Except.error e => Except.error e
          | Except.ok (p, reads) => Except.ok (p, path :: reads)) =
        Except.ok (List.foldl insertNew proc deps, [path])
      rw [resolveLoop_eq fsys n deps proc]

theorem mem_foldl_insertNew (deps : List String) (proc : List String) (x : String) :
    x ∈ deps.foldl insertNew proc ↔ x ∈ proc ∨ x ∈ deps := by
  induction deps generalizing proc with
  | nil => simp
  | cons dep rest ih =>
    simp only [List.foldl_cons, insertNew]
    by_cases h : dep ∈ proc
    · rw [if_pos h, ih]
      constructor
      · rintro (hx | hx)
        · exact Or.inl hx
        · exact Or.inr (List.mem_cons_of_mem _ hx)
      · rintro (hx | hx)
        · exact Or.inl hx
        · rcases List.mem_cons.mp hx with rfl | hx
          · exact Or.inl h
          · exact Or.inr hx
    · rw [if_neg h, ih]
      simp only [List.mem_cons]
      tauto

/-! ### Concrete dependency graphs used as test inputs -/

/-- The round-trip scenario of the spec: root `exe` with direct deps
`{A, B}`; `A` depends on `{C}`; `B` on `{}`; `C` on `{A}` (cycle). -/
def fsysC1 : String → Option (List String)
  | "exe" => some ["A", "B"]
  | "A" => some ["C"]
  | "B" => some []
  | "C" => some ["A"]
  | _ => none

/-- Cycle reachable through a chain: `exe` → `A` → `B` → `A`. -/
def fsysC5 : String → Option (List String)
  | "exe" => some ["A"]
  | "A" => some ["B"]
  | "B" => some ["A"]
  | _ => none

/-- Graph where `exe` depends on the bare name `libA.so`; the file at the resolved
location `/lib/libA.so` declares a further dependency `libC.so`; the bare
name `libA.so` itself is not a readable path. -/
def fsysC4 : String → Option (List String)
  | "exe" => some ["libA.so"]
  | "/lib/libA.so" => some ["libC.so"]
  | _ => none

/-- Existence predicate for the C4 scenario: only `/lib/libA.so` exists. -/
def exC4 : String → Bool := fun p => p == "/lib/libA.so"

/-- Minimal graph: `exe` has one dependency `A`. -/
def fsysC3 : String → Option (List String)
  | "exe" => some ["A"]
  | "A" => some []
  | _ => none

/-- C1: for the scenario root `exe` → {A, B}, A → {C}, B → {}, C → {A},
the claim states the unfiltered closure is {A, B, C}; the code however
returns only the direct dependencies {A, B} and never discovers `C`: each
dependency is inserted into Visited immediately before the recursive call
on it, so the callee's entry guard fires and every recursive call returns
at once — only `exe` itself is ever read. This theorem evaluates the
embedded resolver on the scenario: result set {B, A}, read trace [exe],
and C is absent. -/
theorem C1_code_result_on_scenario :
    resolveDepsRec fsysC1 2 "exe" [] = Except.ok (["B", "A"], ["exe"]) ∧
    "C" ∉ (["B", "A"] : List String) := by
  refine ⟨rfl, ?_⟩
  decide

/-- C5: for the cycle reachable through a chain (`exe` → A, A → B, B → A)
the claim states resolution terminates with both A and B in the set; the
code does terminate (the value below exists), but the returned set is {A}
only — B is never discovered because the recursive call into A returns
immediately. -/
theorem C5_code_result_on_cycle :
    resolveDepsRec fsysC5 2 "exe" [] = Except.ok (["A"], ["exe"]) ∧
    "B" ∉ (["A"] : List String) := by
  refine ⟨rfl, ?_⟩
  decide

/-- C4: the claim states the resolver recurses into each new dependency
using the resolved absolute path obtained from `find_library_path`. In the
scenario, `libA.so` resolves to `/lib/libA.so`, whose file declares
`libC.so`; had the code recursed via the resolved path, `libC.so` would be
in the set and `/lib/libA.so` in the read trace. The code instead recurses
on the bare name (and the call returns immediately): the read trace is
`[exe]` alone — `find_library_path` is never consulted during traversal —
and `libC.so` is absent from the result. -/
theorem C4_code_result_on_scenario :
    find_library_path exC4 "libA.so" [] none = some "/lib/libA.so" ∧
    resolveDepsRec fsysC4 2 "exe" [] = Except.ok (["libA.so"], ["exe"]) ∧
    "/lib/libA.so" ∉ (["exe"] : List String) ∧
    "libC.so" ∉ (["libA.so"] : List String) := by
  refine ⟨rfl, rfl, ?_, ?_⟩ <;> decide

/-- C3 counterexample: the claim states the returned Visited set contains
the current path of every invocation that reads a file's dependencies. The
root invocation on `exe` does read its dependencies (the read trace is
`[exe]`), yet `exe` is not in the returned set: the code never inserts the
current path, only the dependency names. -/
theorem C3_counterexample :
    resolveDepsRec fsysC3 2 "exe" [] = Except.ok (["A"], ["exe"]) ∧
    "exe" ∉ (["A"] : List String) := by
  refine ⟨rfl, ?_⟩
  decide

/-- C3 (amended): in the dependency loop each new dependency name is added
to Visited immediately before the recursive call on it, but the current
path itself is never added; consequently the returned set is the initial
Visited set plus the direct dependency names, and does not contain the
current (root) path unless that path was already in Visited or among its
own dependency names. -/
theorem C3_amended_deps_marked_not_current
    (fsys : String → Option (List String)) (fuel : Nat) (path : String)
    (proc deps : List String) (h2 : 2 ≤ fuel) (hp : path ∉ proc)
    (hf : fsys path = some deps) :
    resolveDepsRec fsys fuel path proc =
      Except.ok (deps.foldl insertNew proc, [path]) ∧
    (path ∉ deps → path ∉ deps.foldl insertNew proc) := by
  constructor
  · rw [resolveDepsRec_closed_form fsys fuel h2 path proc, if_neg hp, hf]
  · intro hd hmem
    rcases (mem_foldl_insertNew deps proc path).mp hmem with h | h
    · exact hp h
    · exact hd h

/-- Witness for the amended C3 theorem at the concrete minimal graph. -/
theorem C3_amended_deps_marked_not_current_witness :
    resolveDepsRec fsysC3 2 "exe" [] =
      Except.ok ((["A"] : List String).foldl insertNew [], ["exe"]) ∧
    ("exe" ∉ (["A"] : List String) →
      "exe" ∉ (["A"] : List String).foldl insertNew []) :=
  C3_amended_deps_marked_not_current fsysC3 2 "exe" [] ["A"]
    (by decide) (by decide) rfl

/-! ### Search-path order (C2, C9) -/

theorem probeDirs_fst (ex : String → Bool) (name : String) (ds : List String) :
    (probeDirs ex name ds).1 =
      ds.findSome? (fun d => if ex (joinPath d name) then some (joinPath d name) else none) := by
  induction ds with
  | nil => rfl
  | cons d rest ih =>
    simp only [probeDirs, List.findSome?_cons]
    by_cases h : ex (joinPath d name)
    · simp [h]
    · simp [h, ih]

theorem find_library_path_eq_or (ex : String → Bool) (name : String)
    (user : List String) (ld : Option String) :
    find_library_path ex name user ld =
      ((probeDirs ex name (system_paths ++ user)).1).or
        ((probeDirs ex name (ldSplit ld)).1) := by
  simp only [find_library_path, find_library_path_trace]
  rcases hc : (probeDirs ex name (system_paths ++ user)).1 with _ | p <;>
    simp [hc, Option.or]

/-- Existence predicate for the C2 scenario: `libfoo.so` is present both
in the built-in system directory `/lib` and in the user-supplied
directory `/extra`. -/
def exC2 : String → Bool :=
  fun p => p == "/lib/libfoo.so" || p == "/extra/libfoo.so"

/-- C2 counterexample: the claim states that when a library file exists in
both a user-supplied directory and a built-in system directory, the
resolver returns the path from the user-supplied directory. With the user
path `/extra` and the file present in both `/extra` and `/lib`, the code
returns `/lib/libfoo.so`: `find_library_path` appends the user paths
*after* the built-in system list, so the system tier wins. -/
theorem C2_counterexample :
    find_library_path exC2 "libfoo.so" ["/extra"] none = some "/lib/libfoo.so" ∧
    ("/lib/libfoo.so" : String) ≠ "/extra/libfoo.so" := by
  refine ⟨rfl, ?_⟩
  decide

/-- C2 (amended): the tiers are consulted in the fixed order built-in
system directories (`/lib`, `/usr/lib`, `/lib64`, `/usr/lib64`,
`/usr/local/lib`), then the user-supplied extra paths in the order given,
then the colon-separated environment-variable directories left to right;
the first directory containing the file wins, so a file present in both a
user-supplied and a system directory resolves to the system directory's
path. -/
theorem C2_amended_search_order (ex : String → Bool) (name : String)
    (user : List String) (ld : Option String) :
    find_library_path ex name user ld =
      (system_paths ++ user ++ ldSplit ld).findSome?
        (fun d => if ex (joinPath d name) then some (joinPath d name) else none) := by
  rw [find_library_path_eq_or, probeDirs_fst, probeDirs_fst]
  exact (List.findSome?_append).symm

theorem probeDirs_all_fail (ex : String → Bool) (name : String) (ds : List String)
    (h : ∀ d ∈ ds, ex (joinPath d name) = false) :
    probeDirs ex name ds = (none, ds) := by
  induction ds with
  | nil => rfl
  | cons d rest ih =>
    have hd := h d (List.mem_cons_self d rest)
    simp only [probeDirs, hd, Bool.false_eq_true, if_false]
    rw [ih (fun x hx => h x (List.mem_cons_of_mem d hx))]

/-- C9 counterexample: the claim states no directory is ever searched
twice. With the user-supplied extra path `/lib` (which is also the first
built-in system directory) and a library that exists nowhere, the probe
trace visits `/lib` twice. -/
theorem C9_counterexample :
    (find_library_path_trace (fun _ => false) "liby.so" ["/lib"] none).2 =
      ["/lib", "/usr/lib", "/lib64", "/usr/lib64", "/usr/local/lib", "/lib"] ∧
    ¬ (["/lib", "/usr/lib", "/lib64", "/usr/lib64", "/usr/local/lib", "/lib"] :
        List String).Nodup := by
  refine ⟨rfl, ?_⟩
  decide

/-- C9 (amended): the directories are probed in the fixed sequence
system tier, then user tier, then environment tier, stopping at the first
hit, with no deduplication within or across tiers: when the library is
found nowhere, every occurrence of every directory is probed, so a
directory listed in more than one tier is probed once per occurrence. -/
theorem C9_amended_probe_sequence (ex : String → Bool) (name : String)
    (user : List String) (ld : Option String)
    (h : ∀ d ∈ system_paths ++ user ++ ldSplit ld, ex (joinPath d name) = false) :
    (find_library_path_trace ex name user ld).2 =
      system_paths ++ user ++ ldSplit ld := by
  have h1 : ∀ d ∈ system_paths ++ user, ex (joinPath d name) = false := by
    intro d hd
    apply h
    simp only [List.mem_append] at hd ⊢
    tauto
  have h2 : ∀ d ∈ ldSplit ld, ex (joinPath d name) = false := by
    intro d hd
    apply h
    simp only [List.mem_append]
    tauto
  simp only [find_library_path_trace, probeDirs_all_fail ex name _ h1,
    probeDirs_all_fail ex name _ h2]

/-- Witness for the amended C9 theorem: a concrete non-existent library
with `/lib` supplied again as a user path; the trace is the full
concatenation (with `/lib` occurring twice). -/
theorem C9_amended_probe_sequence_witness :
    (find_library_path_trace (fun _ => false) "libx.so" ["/lib"] none).2 =
      system_paths ++ ["/lib"] ++ ldSplit none :=
  C9_amended_probe_sequence (fun _ => false) "libx.so" ["/lib"] none
    (fun _ _ => rfl)

/-! ### Ignore filter (C7, C10) -/

theorem headMatch_append (pat s t : List Char) (h : headMatch pat s = true) :
    headMatch pat (s ++ t) = true := by
  induction pat generalizing s with
  | nil => rfl
  | cons p ps ih =>
    cases s with
    | nil => cases h
    | cons c cs =>
      simp only [headMatch, Bool.and_eq_true] at h
      simp only [List.cons_append, headMatch, Bool.and_eq_true]
      exact ⟨h.1, ih cs h.2⟩

theorem subMatch_of_headMatch (pat s : List Char) (h : headMatch pat s = true) :
    subMatch pat s = true := by
  cases s with
  | nil => exact h
  | cons c cs => simp [subMatch, h]

theorem subMatch_cons (pat : List Char) (c : Char) (s : List Char)
    (h : subMatch pat s = true) : subMatch pat (c :: s) = true := by
  simp [subMatch, h]

theorem subMatch_append_left (pat pre s : List Char) (h : subMatch pat s = true) :
    subMatch pat (pre ++ s) = true := by
  induction pre with
  | nil => exact h
  | cons c cs ih => exact subMatch_cons pat c _ ih

/-- Any dependency name containing the seven-character window
`l i b c ⟨x⟩ s o` with `x` any non-newline character is matched by the
third ignore regex (`libc.so.*`): the `.` wildcard accepts `x` and the
trailing `.*` accepts the (possibly empty) rest. -/
theorem isIgnored_of_libcXso (d : String) (pre post : List Char) (x : Char)
    (hx : x ≠ '\n')
    (hd : d.toList = pre ++ ('l' :: 'i' :: 'b' :: 'c' :: x :: 's' :: 'o' :: post)) :
    isIgnored d = true := by
  have hpat : headMatch ("libc.so".toList)
      ('l' :: 'i' :: 'b' :: 'c' :: x :: 's' :: 'o' :: post) = true := by
    simp [headMatch, charMatch, hx]
  have hsub : subMatch ("libc.so".toList) d.toList = true := by
    rw [hd]
    exact subMatch_append_left _ _ _ (subMatch_of_headMatch _ _ hpat)
  simp only [isIgnored, ignore_patterns, List.any_cons, List.any_nil,
    Bool.or_eq_true]
  exact Or.inr (Or.inr (Or.inl hsub))

/-- Graph whose direct dependencies include one entry matched by the
ignore list (the C runtime) and one kept entry (the math library). -/
def fsysC7 : String → Option (List String)
  | "exe" => some ["libm.so.6", "libc.so.6"]
  | _ => none

/-- C7: the ignore filter runs once on the completed raw closure and
removes exactly the entries matching one of the three patterns: the output
is the filter of the raw closure, membership in the output is equivalent
to raw membership plus matching no pattern (hence independent of set
iteration order, which the permutation conjunct makes explicit), and
matching tolerates trailing version suffixes: `libc.so.6` is matched by
the pattern targeting `libc.so`. -/
theorem C7_ignore_filter_exact (fsys : String → Option (List String))
    (fuel : Nat) (path : String) (raw reads : List String)
    (h : resolveDepsRec fsys fuel path [] = Except.ok (raw, reads)) :
    resolve_dependencies fsys fuel path =
      Except.ok (raw.filter (fun dep => !isIgnored dep)) ∧
    (∀ d, d ∈ raw.filter (fun dep => !isIgnored dep) ↔
      d ∈ raw ∧ isIgnored d = false) ∧
    (∀ raw', raw.Perm raw' →
      (raw.filter (fun dep => !isIgnored dep)).Perm
        (raw'.filter (fun dep => !isIgnored dep))) ∧
    isIgnored "libc.so.6" = true := by
  refine ⟨?_, ?_, ?_, ?_⟩
  · simp [resolve_dependencies, h]
  · intro d
    simp [List.mem_filter]
  · intro raw' hp
    exact hp.filter _
  · decide

/-- Witness for C7 at a concrete graph: `exe` needs `libm.so.6` and
`libc.so.6`; the raw closure holds both and the filter keeps only
`libm.so.6`. -/
theorem C7_ignore_filter_exact_witness :
    resolve_dependencies fsysC7 2 "exe" =
      Except.ok ((["libc.so.6", "libm.so.6"] : List String).filter
        (fun dep => !isIgnored dep)) ∧
    (∀ d, d ∈ (["libc.so.6", "libm.so.6"] : List String).filter
        (fun dep => !isIgnored dep) ↔
      d ∈ (["libc.so.6", "libm.so.6"] : List String) ∧ isIgnored d = false) ∧
    (∀ raw', (["libc.so.6", "libm.so.6"] : List String).Perm raw' →
      ((["libc.so.6", "libm.so.6"] : List String).filter
        (fun dep => !isIgnored dep)).Perm
        (raw'.filter (fun dep => !isIgnored dep))) ∧
    isIgnored "libc.so.6" = true :=
  C7_ignore_filter_exact fsysC7 2 "exe" ["libc.so.6", "libm.so.6"] ["exe"] rfl

/-- Graph whose single dependency name contains the window
`libc⟨newline⟩so`, which the `.` wildcard of Rust's regex crate does not
match. -/
def fsysC10 : String → Option (List String)
  | "exe" => some ["alibc\nsob"]
  | _ => none

/-- Graph whose single dependency name contains the window `libcXso`
(`X` a literal capital letter), matched by the wildcard of `libc.so.*`. -/
def fsysC10w : String → Option (List String)
  | "exe" => some ["alibcXsob"]
  | _ => none

/-- C10 counterexample: the claim states the `.` of the ignore regexes
matches any single character, so every name containing `libcXso` for any
character X is removed. Rust's regex `.` does not match a newline: the
name `alibc\nsob` contains such a window with X the newline character,
matches no ignore pattern, and survives filtering. -/
theorem C10_counterexample :
    (∃ pre x post, ("alibc\nsob").toList =
      pre ++ ('l' :: 'i' :: 'b' :: 'c' :: x :: 's' :: 'o' :: post)) ∧
    isIgnored "alibc\nsob" = false ∧
    resolve_dependencies fsysC10 2 "exe" = Except.ok ["alibc\nsob"] := by
  refine ⟨⟨['a'], '\n', ['b'], by decide⟩, by decide, rfl⟩

/-- C10 (amended): each ignore regex is matched as an unanchored substring
with `.` matching any single character except a newline; consequently
every dependency name containing a window `libcXso` with X any non-newline
character is removed from the final set, even when it is not the C runtime
library. -/
theorem C10_amended_substring_removal (fsys : String → Option (List String))
    (fuel : Nat) (path : String) (out : List String) (d : String)
    (pre post : List Char) (x : Char) (hx : x ≠ '\n')
    (hd : d.toList = pre ++ ('l' :: 'i' :: 'b' :: 'c' :: x :: 's' :: 'o' :: post))
    (hrun : resolve_dependencies fsys fuel path = Except.ok out) :
    d ∉ out := by
  have hig := isIgnored_of_libcXso d pre post x hx hd
  unfold resolve_dependencies at hrun
  cases hres : resolveDepsRec fsys fuel path [] with
  | error e =>
    rw [hres] at hrun
    cases hrun
  | ok pr =>
    obtain ⟨raw, reads⟩ := pr
    rw [hres] at hrun
    simp only [Except.ok.injEq] at hrun
    subst hrun
    intro hmem
    have h2 := (List.mem_filter.mp hmem).2
    rw [hig] at h2
    cases h2

/-- Witness for the amended C10 theorem: the name `alibcXsob` is filtered
out of the closure, so it is absent from the final output. -/
theorem C10_amended_substring_removal_witness :
    resolve_dependencies fsysC10w 2 "exe" = Except.ok [] ∧
    "alibcXsob" ∉ ([] : List String) :=
  ⟨rfl, C10_amended_substring_removal fsysC10w 2 "exe" [] "alibcXsob"
    ['a'] ['b'] 'X' (by decide) (by decide) rfl⟩

/-! ### Copy step (C6) and command surface (C8) -/

/-- Existence predicate for the C6 scenario: only `/lib/libB.so` exists,
so `libA.so` is unresolvable in every tier. -/
def exC6 : String → Bool := fun p => p == "/lib/libB.so"

/-- C6: an unresolvable library name is not fatal: `copy_libraries`
processes the whole set (the model is a total function, matching the Rust
function's `Ok(())` return on this path), emits the `not found` report for
the unresolvable name, performs no copy for it (every copy event's source
comes from a different, resolvable library), and still copies every
resolvable library to the target directory. -/
theorem C6_not_found_nonfatal (ex : String → Bool) (ld : Option String)
    (libraries : List String) (target_dir : String) (search_path : List String)
    (lib : String) (hmem : lib ∈ libraries)
    (hnf : find_library_path ex lib search_path ld = none) :
    CopyEvent.notFound lib ∈ copy_libraries ex ld libraries target_dir search_path ∧
    (∀ src tgt,
      CopyEvent.copied src tgt ∈ copy_libraries ex ld libraries target_dir search_path →
      ∃ l, l ∈ libraries ∧ l ≠ lib ∧
        find_library_path ex l search_path ld = some src) ∧
    (∀ l, l ∈ libraries → ∀ p, find_library_path ex l search_path ld = some p →
      CopyEvent.copied p (joinPath target_dir (fileName p)) ∈
        copy_libraries ex ld libraries target_dir search_path) := by
  refine ⟨?_, ?_, ?_⟩
  · exact List.mem_map.mpr ⟨lib, hmem, by rw [hnf]⟩
  · intro src tgt hcp
    obtain ⟨l, hl, he⟩ := List.mem_map.mp hcp
    cases hf : find_library_path ex l search_path ld with
    | none =>
      rw [hf] at he
      cases he
    | some p =>
      rw [hf] at he
      injection he with h1 h2
      subst h1
      refine ⟨l, hl, ?_, hf⟩
      intro hleq
      rw [hleq, hnf] at hf
      cases hf
  · intro l hl p hp
    exact List.mem_map.mpr ⟨l, hl, by rw [hp]⟩

/-- Witness for C6: `libA.so` resolves nowhere while `libB.so` resolves to
`/lib/libB.so`; the not-found report appears, no copy stems from
`libA.so`, and `libB.so` is still copied. -/
theorem C6_not_found_nonfatal_witness :
    find_library_path exC6 "libA.so" [] none = none ∧
    (CopyEvent.notFound "libA.so" ∈
      copy_libraries exC6 none ["libA.so", "libB.so"] "output/libs" [] ∧
    (∀ src tgt,
      CopyEvent.copied src tgt ∈
        copy_libraries exC6 none ["libA.so", "libB.so"] "output/libs" [] →
      ∃ l, l ∈ (["libA.so", "libB.so"] : List String) ∧ l ≠ "libA.so" ∧
        find_library_path exC6 l [] none = some src) ∧
    (∀ l, l ∈ (["libA.so", "libB.so"] : List String) → ∀ p,
      find_library_path exC6 l [] none = some p →
      CopyEvent.copied p (joinPath "output/libs" (fileName p)) ∈
        copy_libraries exC6 none ["libA.so", "libB.so"] "output/libs" [])) :=
  ⟨rfl, C6_not_found_nonfatal exC6 none ["libA.so", "libB.so"] "output/libs" []
    "libA.so" (by decide) rfl⟩

/-- C8: clap accepts the executable path alone: `target` then defaults to
`output` and `search` parses as absent. But `main` (src/src/main.rs line
182) immediately calls `args.search.unwrap()`, which panics on an absent
search path (modelled by `main_user_search_path` returning `none`), so the
program does not run without `--search` even though the argument is
declared optional. -/
theorem C8_missing_search_panics :
    (parse_args "app" none none).target = "output" ∧
    (parse_args "app" none none).exe = "app" ∧
    main_user_search_path (parse_args "app" none none) = none :=
  ⟨rfl, rfl, rfl⟩

end Cpdep
